import Mathlib

/-!
Shallow embedding of the robot server's actuation core (`src/server/app.py`)
and the client's frame pipeline (`src/client/vision/frame_processor.py`).

Commanded speeds, calibration values and timestamps are modelled as rationals
(`ℚ`); duty values, which pass through the gamma power `mag ** GAMMA`, are
modelled as reals (`ℝ`) with `Real.rpow`.  Hardware pin writes are modelled as
an explicit `Effect` trace.
-/

namespace RobotSpec

/-! ## Constants of `src/server/app.py` -/

noncomputable def DUTY_MIN : ℝ := 0.12

noncomputable def DUTY_MAX : ℝ := 1.00

def BRAKE_TIME : ℚ := 0.06

noncomputable def GAMMA : ℝ := 0.7

noncomputable def START_KICK_DUTY : ℝ := 0.6

def START_KICK_MS : ℚ := 70

def SPEED_LIMIT_INIT : ℚ := 0.30

/-- `POLARITY = {"L": -1, "R": +1}`, left polarity. -/
def POLARITY_L : ℚ := -1

/-- `POLARITY = {"L": -1, "R": +1}`, right polarity. -/
def POLARITY_R : ℚ := 1

def TRIM_INIT : ℚ := 1.00

def WATCHDOG_S : ℚ := 0.30

/-! ## Motor output state and hardware effects -/

/-- One side of `_cur`: `{"dir": 0, "duty": 0.0}`.  `dir` is `1` (forward),
`-1` (reverse) or `0` (coast). -/
structure MotorOut where
  dir : ℤ
  duty : ℝ

/-- Trace items standing for the `pigpio` pin writes the server performs.
`brake` is `in1=1, in2=1` with PWM forced to `0` (the active brake
configuration); `hold t` is `time.sleep(t)`; `coast` is `in1=0, in2=0` with
PWM off; `dirSet d` sets the two direction lines for sign `d`; `kickHold k`
is the PWM burst at duty `k` held for `START_KICK_MS`; `pwmSet d` is the
steady PWM write at duty `d`. -/
inductive Effect where
  | brake : Effect
  | hold : ℚ → Effect
  | coast : Effect
  | dirSet : ℤ → Effect
  | kickHold : ℝ → Effect
  | pwmSet : ℝ → Effect

/-! ## `_set_speed_one` -/

/-- `s = max(-1.0, min(1.0, float(speed))) * POLARITY[side]` in
`_set_speed_one`. -/
def raw_of (pol speed : ℚ) : ℚ := max (-1) (min 1 speed) * pol

/-- `mag = abs(s) * clamp(SPEED_LIMIT,0,1) * clamp(TRIM[side],0,2)` in
`_set_speed_one`. -/
def mag_of (sl trim pol speed : ℚ) : ℚ :=
  |raw_of pol speed| * max 0 (min 1 sl) * max 0 (min 2 trim)

/-- `target_duty = DUTY_MIN + (DUTY_MAX - DUTY_MIN) * min(1.0, pow(mag, GAMMA))`
in `_set_speed_one`. -/
noncomputable def target_duty_of (mag : ℚ) : ℝ :=
  DUTY_MIN + (DUTY_MAX - DUTY_MIN) * min 1 ((mag : ℝ) ^ GAMMA)

/-- Result of `_set_speed_one`: the new `_cur[side]`, the kick duty applied
when the side was previously stopped (`None` when no kick fired), and the pin
writes performed. -/
structure SetSpeedRes where
  out : MotorOut
  kick : Option ℝ
  effects : List Effect

/-- `_set_speed_one(side, speed)` for one side, as a function of the current
clamped calibration reads (`sl`, `trim`), the side's polarity `pol`, the
side's current `_cur` record and the commanded `speed`. -/
noncomputable def set_speed_one (sl trim pol : ℚ) (cur : MotorOut) (speed : ℚ) :
    SetSpeedRes :=
  let s := raw_of pol speed
  let mag := mag_of sl trim pol speed
  if mag < 1/1000 then
    { out := { dir := 0, duty := 0 }, kick := none, effects := [.coast] }
  else
    let direction : ℤ := if 0 < s then 1 else -1
    let td := target_duty_of mag
    let kick : Option ℝ :=
      if cur.duty ≤ 1/1000000 then some (max td START_KICK_DUTY) else none
    { out := { dir := direction, duty := td },
      kick := kick,
      effects := [.dirSet direction] ++
        (match kick with | some k => [.kickHold k] | none => []) ++
        [.pwmSet td] }

/-! ## `stop_all`, intent, handlers and the apply loop -/

/-- `_last_drive = {"left": 0.0, "right": 0.0, "ts": 0.0}`. -/
structure DriveIntent where
  left : ℚ
  right : ℚ
  ts : ℚ
deriving DecidableEq

/-- The server's mutable state touched by the drive path: the latest intent,
both `_cur` records, and the mutable calibration (`SPEED_LIMIT`, `TRIM`). -/
structure ServerState where
  last_drive : DriveIntent
  curL : MotorOut
  curR : MotorOut
  speed_limit : ℚ
  trimL : ℚ
  trimR : ℚ

/-- Module initialisation: `_cur` coasting with duty `0`, `_last_drive`
zeroed, `SPEED_LIMIT = 0.30`, `TRIM = {L: 1.0, R: 1.0}`. -/
noncomputable def init_state : ServerState :=
  { last_drive := { left := 0, right := 0, ts := 0 }
    curL := { dir := 0, duty := 0 }
    curR := { dir := 0, duty := 0 }
    speed_limit := SPEED_LIMIT_INIT
    trimL := TRIM_INIT
    trimR := TRIM_INIT }

/-- Pin writes of `stop_all(brake)`: with `brake` both direction pairs are
driven to the brake configuration with PWM `0`, held `BRAKE_TIME`, then both
sides settle to coast. -/
def stop_all_effects (brake : Bool) : List Effect :=
  if brake then [.brake, .hold BRAKE_TIME, .coast] else [.coast]

/-- `stop_all(brake)`: the motor state after it (both sides coast, duty 0). -/
noncomputable def stop_all (st : ServerState) : ServerState :=
  { st with curL := { dir := 0, duty := 0 }, curR := { dir := 0, duty := 0 } }

/-- Synchronous acknowledgement: `{ok: True, ...}` or `{ok: False, error}`. -/
inductive Ack where
  | ok : Ack
  | err : Ack
deriving DecidableEq

/-- A JSON value in a command payload: a number (anything `float()` accepts)
or a non-numeric value (on which `float()` raises). -/
inductive JVal where
  | num : ℚ → JVal
  | nonnum : JVal
deriving DecidableEq

/-- Payload of the `drive` event. -/
structure DrivePayload where
  left : Option JVal
  right : Option JVal

/-- `float(data.get(key, 0.0))`: a missing key defaults to `0.0`; a
non-numeric value raises (`none`). -/
def getFloat (v : Option JVal) : Option ℚ :=
  match v with
  | none => some 0
  | some (.num q) => some q
  | some .nonnum => none

/-- `on_drive(data)`: parse `left` and `right`; on failure return the error
acknowledgement leaving `_last_drive` unchanged, otherwise overwrite
`_last_drive` wholesale with the parsed values and `ts = now`. -/
def on_drive (st : ServerState) (p : DrivePayload) (now : ℚ) :
    ServerState × Ack :=
  match getFloat p.left, getFloat p.right with
  | some l, some r => ({ st with last_drive := { left := l, right := r, ts := now } }, .ok)
  | _, _ => (st, .err)

/-- Reply of `on_stop`: `{"ok": True, "left": _cur["L"], "right": _cur["R"]}`. -/
structure StopReply where
  ok : Bool
  left : MotorOut
  right : MotorOut

/-- `on_stop()`: zero the intent at `now`, run `stop_all(brake=True)`, reply
with the resulting `_cur` records. -/
noncomputable def on_stop (st : ServerState) (now : ℚ) :
    ServerState × StopReply × List Effect :=
  let st1 := stop_all { st with last_drive := { left := 0, right := 0, ts := now } }
  (st1, { ok := true, left := st1.curL, right := st1.curR }, stop_all_effects true)

/-- The effective inputs one iteration of `_drive_apply_loop` feeds to
`_set_speed_one`: zero for both sides when the intent is stale
(`now - ts > WATCHDOG_S`), the stored intent otherwise. -/
def effective_input (st : ServerState) (now : ℚ) : ℚ × ℚ :=
  if WATCHDOG_S < now - st.last_drive.ts then (0, 0)
  else (st.last_drive.left, st.last_drive.right)

/-- One iteration of `_drive_apply_loop` at time `now`: apply the effective
inputs to both sides via `_set_speed_one`. -/
noncomputable def drive_apply_tick (st : ServerState) (now : ℚ) :
    ServerState × List Effect :=
  let li := effective_input st now
  let rL := set_speed_one st.speed_limit st.trimL POLARITY_L st.curL li.1
  let rR := set_speed_one st.speed_limit st.trimR POLARITY_R st.curR li.2
  ({ st with curL := rL.out, curR := rR.out }, rL.effects ++ rR.effects)

/-- `on_set_speed_limit(data)`: a numeric value is clamped into `[0,1]` and
stored; a missing or non-numeric value raises and is answered with the error
acknowledgement. -/
def on_set_speed_limit (st : ServerState) (v : Option JVal) :
    ServerState × Ack :=
  match v with
  | some (.num q) => ({ st with speed_limit := max 0 (min 1 q) }, .ok)
  | _ => (st, .err)

/-- Payload of the `set_trim` event. -/
structure TrimPayload where
  trimL : Option JVal
  trimR : Option JVal

/-- `on_set_trim(data)`: for `"L"` then `"R"`, a present numeric value is
clamped into `[0,2]` and stored; a present non-numeric value raises at that
point (mutations already made persist) and is answered with the error
acknowledgement. -/
def on_set_trim (st : ServerState) (p : TrimPayload) : ServerState × Ack :=
  match p.trimL with
  | some .nonnum => (st, .err)
  | some (.num q) =>
    let st1 := { st with trimL := max 0 (min 2 q) }
    match p.trimR with
    | some .nonnum => (st1, .err)
    | some (.num r) => ({ st1 with trimR := max 0 (min 2 r) }, .ok)
    | none => (st1, .ok)
  | none =>
    match p.trimR with
    | some .nonnum => (st, .err)
    | some (.num r) => ({ st with trimR := max 0 (min 2 r) }, .ok)
    | none => (st, .ok)

/-- The server states reachable from module initialisation by any
interleaving of apply-loop ticks and command handlers. -/
inductive Reachable : ServerState → Prop where
  | init : Reachable init_state
  | tick (st : ServerState) (now : ℚ) :
      Reachable st → Reachable (drive_apply_tick st now).1
  | drive (st : ServerState) (p : DrivePayload) (now : ℚ) :
      Reachable st → Reachable (on_drive st p now).1
  | stop (st : ServerState) (now : ℚ) :
      Reachable st → Reachable (on_stop st now).1
  | setSpeedLimit (st : ServerState) (v : Option JVal) :
      Reachable st → Reachable (on_set_speed_limit st v).1
  | setTrim (st : ServerState) (p : TrimPayload) :
      Reachable st → Reachable (on_set_trim st p).1

/-! ## Servo (`_clamp_deg`, `_deg_to_us`, `on_servo_set`) -/

def SERVO_MIN_DEG : ℚ := 0

def SERVO_MAX_DEG : ℚ := 90

def SERVO_MIN_US : ℚ := 500

def SERVO_MAX_US : ℚ := 2400

def SERVO_DEFAULT_DEG : ℚ := 90

/-- `_clamp_deg(deg)`. -/
def clamp_deg (deg : ℚ) : ℚ := max SERVO_MIN_DEG (min SERVO_MAX_DEG deg)

/-- Python's `int()` on a rational: truncation toward zero. -/
def pyInt (q : ℚ) : ℤ := if 0 ≤ q then ⌊q⌋ else ⌈q⌉

/-- The servo's mutable state: `SERVO_ANGLE_DEG` and `SERVO_TRIM_US`. -/
structure ServoState where
  angle : ℚ
  trim_us : ℤ
deriving DecidableEq

/-- `_deg_to_us(deg)`: clamp, map `[0,180] → [500,2400]` linearly, add the
trim offset, truncate to an integer. -/
def deg_to_us (trim_us : ℤ) (deg : ℚ) : ℤ :=
  let d := clamp_deg deg
  pyInt (SERVO_MIN_US + (SERVO_MAX_US - SERVO_MIN_US) * (d / 180) + trim_us)

/-- Servo state at module initialisation:
`SERVO_ANGLE_DEG = _clamp_deg(SERVO_DEFAULT_DEG)`, `SERVO_TRIM_US = 0`. -/
def servo_init : ServoState :=
  { angle := clamp_deg SERVO_DEFAULT_DEG, trim_us := 0 }

/-- Payload of `servo_set`: optional integer `trim_us`, optional float
`angle`, optional float `delta`. -/
structure ServoPayload where
  trim_us : Option ℤ
  angle : Option ℚ
  delta : Option ℚ

/-- `on_servo_set(data)`: update the trim if present; then `angle`, if
present, is clamped and stored; otherwise `delta`, if present, is added to
the current angle and the sum clamped and stored.  The commanded pulse width
is `_deg_to_us` of the stored angle.  Replies `{ok: True, angle, us, trim_us}`. -/
def on_servo_set (s : ServoState) (p : ServoPayload) : ServoState × ℤ × Ack :=
  let s1 := match p.trim_us with
    | some t => { s with trim_us := t }
    | none => s
  let s2 := match p.angle with
    | some a => { s1 with angle := clamp_deg a }
    | none =>
      match p.delta with
      | some d => { s1 with angle := clamp_deg (s1.angle + d) }
      | none => s1
  (s2, deg_to_us s2.trim_us s2.angle, .ok)

/-- The servo state after a sequence of `servo_set` commands from
initialisation. -/
def servo_run (ps : List ServoPayload) : ServoState :=
  ps.foldl (fun s p => (on_servo_set s p).1) servo_init

/-! ## Frame pipeline (`FrameProcessor`, client side) -/

/-- Program counter of the scheduled `_drain_and_render` task: `idle` (no
task scheduled), `takeStep` (about to take the slot and render its content),
`checkStep` (render done, about to re-check the slot). -/
inductive TaskPC where
  | idle : TaskPC
  | takeStep : TaskPC
  | checkStep : TaskPC
deriving DecidableEq

/-- Per-viewer frame pipeline state: the single-slot mailbox `_latest_jpg`,
the `_render_busy` flag, the position of the render task, and the list of
frames displayed so far (most recent last). -/
structure FPState (α : Type) where
  slot : Option α
  render_busy : Bool
  pc : TaskPC
  rendered : List α

/-- `process_video_frame(jpg_bytes)`: overwrite the slot unconditionally; if
no render is in progress, set the busy flag and schedule `_drain_and_render`. -/
def process_video_frame {α : Type} (st : FPState α) (f : α) : FPState α :=
  if st.render_busy then { st with slot := some f }
  else { st with slot := some f, render_busy := true, pc := .takeStep }

/-- One atomic step of the scheduled `_drain_and_render` task, with `dec f`
standing for `cv2.imdecode` succeeding on the bytes `f`.  At `takeStep` it
takes the slot's content and empties the slot; the taken frame is displayed
only when it decodes (`frame is not None`) — a frame `cv2.imdecode` rejects
is dropped silently.  At `checkStep` it loops back when the slot was
overwritten meanwhile, and otherwise clears the busy flag and goes idle. -/
def task_step {α : Type} (dec : α → Bool) (st : FPState α) : FPState α :=
  match st.pc with
  | .idle => st
  | .takeStep =>
    { st with
      slot := none
      rendered := st.rendered ++
        (match st.slot with
          | some f => if dec f then [f] else []
          | none => [])
      pc := .checkStep }
  | .checkStep =>
    match st.slot with
    | some _ => { st with pc := .takeStep }
    | none => { st with render_busy := false, pc := .idle }

/-- An event of the pipeline: a frame arrival or one step of the render
task. -/
inductive FPEv (α : Type) where
  | arrive : α → FPEv α
  | step : FPEv α

/-- Run the pipeline over a sequence of events, for decodability `dec`. -/
def fp_run {α : Type} (dec : α → Bool) (st : FPState α) :
    List (FPEv α) → FPState α
  | [] => st
  | e :: es =>
    fp_run dec (match e with
      | .arrive f => process_video_frame st f
      | .step => task_step dec st) es

/-! ## Helper lemmas -/

theorem mag_of_nonneg (sl trim pol speed : ℚ) : 0 ≤ mag_of sl trim pol speed :=
  mul_nonneg (mul_nonneg (abs_nonneg _) (le_max_left 0 _)) (le_max_left 0 _)

theorem target_duty_of_mem (mag : ℚ) (h : 0 ≤ mag) :
    DUTY_MIN ≤ target_duty_of mag ∧ target_duty_of mag ≤ DUTY_MAX := by
  have hb : (0:ℝ) ≤ (mag : ℝ) ^ GAMMA :=
    Real.rpow_nonneg (by exact_mod_cast h) _
  have hm0 : (0:ℝ) ≤ min 1 ((mag : ℝ) ^ GAMMA) := le_min (by norm_num) hb
  have hm1 : min 1 ((mag : ℝ) ^ GAMMA) ≤ 1 := min_le_left _ _
  unfold target_duty_of DUTY_MIN DUTY_MAX
  constructor <;> nlinarith

theorem target_duty_of_pos (mag : ℚ) (h : 0 ≤ mag) : 0 < target_duty_of mag :=
  lt_of_lt_of_le (by unfold DUTY_MIN; norm_num) (target_duty_of_mem mag h).1

/-- The spec's per-side motor-output invariant: zero duty exactly at coast,
otherwise duty within `[DUTY_MIN, DUTY_MAX]`. -/
def MotorInv (m : MotorOut) : Prop :=
  (m.duty = 0 ↔ m.dir = 0) ∧ (m.dir ≠ 0 → DUTY_MIN ≤ m.duty ∧ m.duty ≤ DUTY_MAX)

theorem motorInv_zero : MotorInv { dir := 0, duty := 0 } :=
  ⟨by simp, by simp⟩

theorem set_speed_one_inv (sl trim pol : ℚ) (cur : MotorOut) (speed : ℚ) :
    MotorInv (set_speed_one sl trim pol cur speed).out := by
  simp only [set_speed_one]
  by_cases h : mag_of sl trim pol speed < 1/1000
  · rw [if_pos h]; exact motorInv_zero
  · rw [if_neg h]
    obtain ⟨h1, h2⟩ := target_duty_of_mem _ (mag_of_nonneg sl trim pol speed)
    have hpos := target_duty_of_pos _ (mag_of_nonneg sl trim pol speed)
    refine ⟨⟨fun hd => absurd hd (ne_of_gt hpos), fun hdir => ?_⟩,
      fun _ => ⟨h1, h2⟩⟩
    by_cases hs : 0 < raw_of pol speed <;> simp [hs] at hdir

theorem reachable_inv (st : ServerState) (h : Reachable st) :
    MotorInv st.curL ∧ MotorInv st.curR := by
  induction h with
  | init => exact ⟨motorInv_zero, motorInv_zero⟩
  | tick st now _ _ =>
    exact ⟨set_speed_one_inv _ _ _ _ _, set_speed_one_inv _ _ _ _ _⟩
  | drive st p now _ ih =>
    rcases hL : getFloat p.left with _ | l <;>
      rcases hR : getFloat p.right with _ | r <;>
      simpa [on_drive, hL, hR] using ih
  | stop st now _ _ => exact ⟨motorInv_zero, motorInv_zero⟩
  | setSpeedLimit st v _ ih =>
    rcases v with _ | jv
    · simpa [on_set_speed_limit] using ih
    · cases jv <;> simpa [on_set_speed_limit] using ih
  | setTrim st p _ ih =>
    obtain ⟨pl, pr⟩ := p
    rcases pl with _ | jl <;> [skip; cases jl] <;>
      (rcases pr with _ | jr <;> [skip; cases jr]) <;>
      simpa [on_set_trim] using ih

theorem set_speed_one_coast (sl trim pol : ℚ) (cur : MotorOut) (speed : ℚ)
    (h : mag_of sl trim pol speed < 1/1000) :
    set_speed_one sl trim pol cur speed =
      { out := { dir := 0, duty := 0 }, kick := none, effects := [.coast] } := by
  simp only [set_speed_one]; rw [if_pos h]

theorem set_speed_one_go (sl trim pol : ℚ) (cur : MotorOut) (speed : ℚ)
    (h : ¬ mag_of sl trim pol speed < 1/1000) :
    (set_speed_one sl trim pol cur speed).out =
      { dir := if 0 < raw_of pol speed then 1 else -1,
        duty := target_duty_of (mag_of sl trim pol speed) } := by
  simp only [set_speed_one]; rw [if_neg h]

theorem set_speed_one_kick_stopped (sl trim pol : ℚ) (cur : MotorOut) (speed : ℚ)
    (h : ¬ mag_of sl trim pol speed < 1/1000) (h2 : cur.duty ≤ 1/1000000) :
    (set_speed_one sl trim pol cur speed).kick =
      some (max (target_duty_of (mag_of sl trim pol speed)) START_KICK_DUTY) := by
  have h2i : cur.duty ≤ ((1000000:ℝ))⁻¹ := by rw [← one_div]; exact h2
  simp only [set_speed_one]; rw [if_neg h]; simp [h2i]

theorem set_speed_one_kick_moving (sl trim pol : ℚ) (cur : MotorOut) (speed : ℚ)
    (h2 : ¬ cur.duty ≤ 1/1000000) :
    (set_speed_one sl trim pol cur speed).kick = none := by
  have h2i : ¬ cur.duty ≤ ((1000000:ℝ))⁻¹ := by rw [← one_div]; exact h2
  simp only [set_speed_one]
  by_cases h : mag_of sl trim pol speed < 1/1000
  · rw [if_pos h]
  · rw [if_neg h]; simp [h2i]

/-! ## Bounds on the gamma boost at magnitude `0.3` -/

theorem rpow_gamma_bound_03 :
    (43/100 : ℝ) < (3/10 : ℝ) ^ GAMMA ∧ (3/10 : ℝ) ^ GAMMA < 431/1000 := by
  have hx : (0:ℝ) ≤ 3/10 := by norm_num
  have key : ((3/10 : ℝ) ^ GAMMA) ^ (10:ℕ) = (3/10 : ℝ) ^ (7:ℕ) := by
    rw [← Real.rpow_natCast ((3/10 : ℝ) ^ GAMMA) 10, ← Real.rpow_mul hx]
    rw [show GAMMA * ((10:ℕ):ℝ) = ((7:ℕ):ℝ) by unfold GAMMA; push_cast; norm_num]
    rw [Real.rpow_natCast]
  constructor
  · apply lt_of_pow_lt_pow_left₀ 10 (Real.rpow_nonneg hx _)
    rw [key]; norm_num
  · apply lt_of_pow_lt_pow_left₀ 10 (by norm_num : (0:ℝ) ≤ 431/1000)
    rw [key]; norm_num

theorem target_duty_03_bounds :
    (498/1000 : ℝ) < target_duty_of (3/10) ∧
      target_duty_of (3/10) < 4993/10000 := by
  obtain ⟨hlo, hhi⟩ := rpow_gamma_bound_03
  have hcast : ((3/10 : ℚ) : ℝ) = (3/10 : ℝ) := by norm_num
  have hmin : min 1 (((3/10:ℚ):ℝ) ^ GAMMA) = ((3/10:ℚ):ℝ) ^ GAMMA := by
    rw [hcast]; exact min_eq_right (by linarith)
  unfold target_duty_of DUTY_MIN DUTY_MAX
  rw [hmin, hcast]
  constructor <;> nlinarith

theorem drive_scenario_mag :
    raw_of POLARITY_L 1 = -1 ∧ raw_of POLARITY_R 1 = 1 ∧
      mag_of SPEED_LIMIT_INIT TRIM_INIT POLARITY_L 1 = 3/10 ∧
      mag_of SPEED_LIMIT_INIT TRIM_INIT POLARITY_R 1 = 3/10 := by
  refine ⟨?_, ?_, ?_, ?_⟩ <;>
    norm_num [raw_of, mag_of, POLARITY_L, POLARITY_R, SPEED_LIMIT_INIT, TRIM_INIT]

/-! ## C1: the concrete drive scenario -/

/-- C1 counterexample: in the spec's concrete scenario (calibration
`duty_min=0.12, duty_max=1.0, gamma=0.7, speed_limit=0.3, trim=1`,
`polarity L=-1`, `drive(left=1.0, right=1.0)`), the left target duty is not
`≈ 0.482`: it differs from `0.482` by more than `0.01` (and the boost
`0.3 ** 0.7` differs from the spec's `0.411` by more than `0.015`). -/
theorem drive_scenario_duty_not_0482 :
    ¬ |(set_speed_one SPEED_LIMIT_INIT TRIM_INIT POLARITY_L
        { dir := 0, duty := 0 } 1).out.duty - 482/1000| ≤ 1/100 ∧
    ¬ |(3/10 : ℝ) ^ GAMMA - 411/1000| ≤ 15/1000 := by
  obtain ⟨_, _, hmagL, _⟩ := drive_scenario_mag
  have hne : ¬ mag_of SPEED_LIMIT_INIT TRIM_INIT POLARITY_L 1 < 1/1000 := by
    rw [hmagL]; norm_num
  have hout := set_speed_one_go SPEED_LIMIT_INIT TRIM_INIT POLARITY_L
    { dir := 0, duty := 0 } 1 hne
  obtain ⟨hdlo, hdhi⟩ := target_duty_03_bounds
  obtain ⟨hblo, hbhi⟩ := rpow_gamma_bound_03
  constructor
  · rw [hout]; dsimp only; rw [hmagL]
    rw [abs_le]; push_neg
    intro h; linarith
  · rw [abs_le]; push_neg
    intro h; linarith

/-- C1 (amended): in the concrete scenario the left side has `raw = -1`,
`magnitude = 0.3`, direction reverse; the boost is `0.3 ** 0.7 ≈ 0.430`
(strictly between `0.43` and `0.431`) and the duty `≈ 0.499` (strictly
between `0.498` and `0.4993`); the right side is forward with the same
duty. -/
theorem drive_scenario_amended :
    raw_of POLARITY_L 1 = -1 ∧
    mag_of SPEED_LIMIT_INIT TRIM_INIT POLARITY_L 1 = 3/10 ∧
    (set_speed_one SPEED_LIMIT_INIT TRIM_INIT POLARITY_L
      { dir := 0, duty := 0 } 1).out.dir = -1 ∧
    ((43/100 : ℝ) < (3/10 : ℝ) ^ GAMMA ∧ (3/10 : ℝ) ^ GAMMA < 431/1000) ∧
    ((498/1000 : ℝ) < (set_speed_one SPEED_LIMIT_INIT TRIM_INIT POLARITY_L
        { dir := 0, duty := 0 } 1).out.duty ∧
      (set_speed_one SPEED_LIMIT_INIT TRIM_INIT POLARITY_L
        { dir := 0, duty := 0 } 1).out.duty < 4993/10000) ∧
    raw_of POLARITY_R 1 = 1 ∧
    (set_speed_one SPEED_LIMIT_INIT TRIM_INIT POLARITY_R
      { dir := 0, duty := 0 } 1).out.dir = 1 ∧
    (set_speed_one SPEED_LIMIT_INIT TRIM_INIT POLARITY_R
        { dir := 0, duty := 0 } 1).out.duty =
      (set_speed_one SPEED_LIMIT_INIT TRIM_INIT POLARITY_L
        { dir := 0, duty := 0 } 1).out.duty := by
  obtain ⟨hrawL, hrawR, hmagL, hmagR⟩ := drive_scenario_mag
  have hneL : ¬ mag_of SPEED_LIMIT_INIT TRIM_INIT POLARITY_L 1 < 1/1000 := by
    rw [hmagL]; norm_num
  have hneR : ¬ mag_of SPEED_LIMIT_INIT TRIM_INIT POLARITY_R 1 < 1/1000 := by
    rw [hmagR]; norm_num
  have houtL := set_speed_one_go SPEED_LIMIT_INIT TRIM_INIT POLARITY_L
    { dir := 0, duty := 0 } 1 hneL
  have houtR := set_speed_one_go SPEED_LIMIT_INIT TRIM_INIT POLARITY_R
    { dir := 0, duty := 0 } 1 hneR
  obtain ⟨hdlo, hdhi⟩ := target_duty_03_bounds
  refine ⟨hrawL, hmagL, ?_, rpow_gamma_bound_03, ⟨?_, ?_⟩, hrawR, ?_, ?_⟩
  · rw [houtL]; dsimp only; rw [hrawL]; norm_num
  · rw [houtL]; dsimp only; rw [hmagL]; exact hdlo
  · rw [houtL]; dsimp only; rw [hmagL]; exact hdhi
  · rw [houtR]; dsimp only; rw [hrawR]; norm_num
  · rw [houtR, houtL]; dsimp only; rw [hmagL, hmagR]

/-! ## C2: drive command validation -/

/-- C2 counterexample: the out-of-range command `drive(left=2.0, right=0.0)`
is not rejected — the handler acknowledges with `ok` and overwrites the
stored intent. -/
theorem on_drive_out_of_range_accepted :
    (on_drive init_state { left := some (.num 2), right := some (.num 0) } 1).2
        = .ok ∧
      (on_drive init_state { left := some (.num 2), right := some (.num 0) } 1).1.last_drive
        ≠ init_state.last_drive := by
  constructor
  · rfl
  · simp [on_drive, getFloat, init_state]

/-- C2 (amended): a `drive` payload on which `float()` raises (a non-numeric
`left` or `right`) is rejected with the error acknowledgement and the stored
intent is unchanged; a numeric payload — including out-of-range values — is
accepted with `ok` and stored verbatim (clamping happens later, in
`_set_speed_one`). -/
theorem on_drive_validation (st : ServerState) (p : DrivePayload) (now : ℚ) :
    ((getFloat p.left = none ∨ getFloat p.right = none) →
      on_drive st p now = (st, .err)) ∧
    (∀ l r, getFloat p.left = some l → getFloat p.right = some r →
      on_drive st p now =
        ({ st with last_drive := { left := l, right := r, ts := now } }, .ok)) := by
  constructor
  · rintro (h | h) <;>
      rcases h2 : getFloat p.left with _ | l <;>
      rcases h3 : getFloat p.right with _ | r <;>
      simp_all [on_drive]
  · intro l r hl hr
    simp [on_drive, hl, hr]

theorem on_drive_validation_witness :
    ((getFloat (some JVal.nonnum) = none ∨ getFloat (some (JVal.num 0)) = none) →
      on_drive init_state { left := some .nonnum, right := some (.num 0) } 2 =
        (init_state, .err)) ∧
    (∀ l r, getFloat (some JVal.nonnum) = some l →
      getFloat (some (JVal.num 0)) = some r →
      on_drive init_state { left := some .nonnum, right := some (.num 0) } 2 =
        ({ init_state with last_drive := { left := l, right := r, ts := 2 } }, .ok)) :=
  on_drive_validation init_state { left := some .nonnum, right := some (.num 0) } 2

/-! ## C3: watchdog neutralization -/

theorem raw_of_zero (pol : ℚ) : raw_of pol 0 = 0 := by
  unfold raw_of
  rw [min_eq_right (by norm_num : (0:ℚ) ≤ 1),
    max_eq_right (by norm_num : (-1:ℚ) ≤ 0), zero_mul]

theorem mag_of_zero (sl trim pol : ℚ) : mag_of sl trim pol 0 = 0 := by
  unfold mag_of
  rw [raw_of_zero]
  simp

/-- C3: on a tick whose `now` exceeds the intent's timestamp by more than
`WATCHDOG_S`, the effective input is `(0,0)`, both sides are set to coast
with duty `0` through the zero-magnitude branch (the only pin writes are the
two coast settles — no brake assert, no brake hold), and the stored intent is
not rewritten. -/
theorem watchdog_tick_neutralizes (st : ServerState) (now : ℚ)
    (h : WATCHDOG_S < now - st.last_drive.ts) :
    effective_input st now = (0, 0) ∧
    (drive_apply_tick st now).1.curL = { dir := 0, duty := 0 } ∧
    (drive_apply_tick st now).1.curR = { dir := 0, duty := 0 } ∧
    (drive_apply_tick st now).1.last_drive = st.last_drive ∧
    (drive_apply_tick st now).2 = [.coast, .coast] := by
  have heff : effective_input st now = (0, 0) := by
    unfold effective_input; rw [if_pos h]
  have hcL := set_speed_one_coast st.speed_limit st.trimL POLARITY_L st.curL 0
    (by rw [mag_of_zero]; norm_num)
  have hcR := set_speed_one_coast st.speed_limit st.trimR POLARITY_R st.curR 0
    (by rw [mag_of_zero]; norm_num)
  have htick : drive_apply_tick st now =
      ({ st with curL := { dir := 0, duty := 0 }, curR := { dir := 0, duty := 0 } },
        [.coast, .coast]) := by
    simp only [drive_apply_tick, heff]
    simp [hcL, hcR]
  rw [htick]
  exact ⟨heff, rfl, rfl, rfl, rfl⟩

theorem watchdog_tick_neutralizes_witness :
    effective_input init_state 1 = (0, 0) ∧
    (drive_apply_tick init_state 1).1.curL = { dir := 0, duty := 0 } ∧
    (drive_apply_tick init_state 1).1.curR = { dir := 0, duty := 0 } ∧
    (drive_apply_tick init_state 1).1.last_drive = init_state.last_drive ∧
    (drive_apply_tick init_state 1).2 = [.coast, .coast] :=
  watchdog_tick_neutralizes init_state 1
    (by norm_num [WATCHDOG_S, init_state])

/-! ## C4: explicit stop is braked and idempotent -/

/-- C4: every `stop()` performs the braked path — brake configuration
asserted (both direction lines high, PWM `0`), held `BRAKE_TIME`, then both
sides settle to coast with duty `0` — and it reports coast/0 for both sides;
a second `stop()` reports the identical state and performs the identical
writes. -/
theorem stop_braked_and_idempotent (st : ServerState) (now now2 : ℚ) :
    (on_stop st now).2.2 = [.brake, .hold BRAKE_TIME, .coast] ∧
    (on_stop st now).2.1.ok = true ∧
    (on_stop st now).2.1.left = { dir := 0, duty := 0 } ∧
    (on_stop st now).2.1.right = { dir := 0, duty := 0 } ∧
    (on_stop st now).1.curL = { dir := 0, duty := 0 } ∧
    (on_stop st now).1.curR = { dir := 0, duty := 0 } ∧
    (on_stop (on_stop st now).1 now2).2.1 = (on_stop st now).2.1 ∧
    (on_stop (on_stop st now).1 now2).2.2 = (on_stop st now).2.2 :=
  ⟨rfl, rfl, rfl, rfl, rfl, rfl, rfl, rfl⟩

/-! ## C5: the start kick is one-shot per stop-to-move transition -/

theorem kick_helper (sl trim pol : ℚ) (cur : MotorOut) (speed : ℚ)
    (hinv : MotorInv cur) :
    (∀ k, (set_speed_one sl trim pol cur speed).kick = some k →
      cur.duty = 0 ∧ ¬ mag_of sl trim pol speed < 1/1000 ∧
      k = max (target_duty_of (mag_of sl trim pol speed)) START_KICK_DUTY) ∧
    (0 < cur.duty → (set_speed_one sl trim pol cur speed).kick = none) := by
  have hdm : (1/1000000 : ℝ) < DUTY_MIN := by unfold DUTY_MIN; norm_num
  constructor
  · intro k hk
    by_cases h : mag_of sl trim pol speed < 1/1000
    · rw [set_speed_one_coast sl trim pol cur speed h] at hk
      exact absurd hk (by simp)
    · by_cases h2 : cur.duty ≤ 1/1000000
      · have hz : cur.duty = 0 := by
          by_cases hdir : cur.dir = 0
          · exact hinv.1.mpr hdir
          · have := (hinv.2 hdir).1; linarith
        rw [set_speed_one_kick_stopped sl trim pol cur speed h h2] at hk
        exact ⟨hz, h, (Option.some_injective _ hk).symm⟩
      · rw [set_speed_one_kick_moving sl trim pol cur speed h2] at hk
        exact absurd hk (by simp)
  · intro hpos
    have hdir : cur.dir ≠ 0 := fun hd => by
      rw [hinv.1.mpr hd] at hpos; exact lt_irrefl 0 hpos
    have hge := (hinv.2 hdir).1
    exact set_speed_one_kick_moving sl trim pol cur speed (by linarith)

/-- C5: on any actuation-loop tick from a reachable state, a side's kick
(held at `max(target duty, START_KICK_DUTY)`) fires only when that side's
previously recorded duty was `0` and the new magnitude is non-negligible
(`≥ 1e-3`); it never fires while the side is already moving (previous duty
`> 0`). -/
theorem start_kick_one_shot (st : ServerState) (h : Reachable st) (now : ℚ) :
    ((∀ k, (set_speed_one st.speed_limit st.trimL POLARITY_L st.curL
        (effective_input st now).1).kick = some k →
      st.curL.duty = 0 ∧
      ¬ mag_of st.speed_limit st.trimL POLARITY_L (effective_input st now).1 < 1/1000 ∧
      k = max (target_duty_of
        (mag_of st.speed_limit st.trimL POLARITY_L (effective_input st now).1))
        START_KICK_DUTY) ∧
    (0 < st.curL.duty →
      (set_speed_one st.speed_limit st.trimL POLARITY_L st.curL
        (effective_input st now).1).kick = none)) ∧
    ((∀ k, (set_speed_one st.speed_limit st.trimR POLARITY_R st.curR
        (effective_input st now).2).kick = some k →
      st.curR.duty = 0 ∧
      ¬ mag_of st.speed_limit st.trimR POLARITY_R (effective_input st now).2 < 1/1000 ∧
      k = max (target_duty_of
        (mag_of st.speed_limit st.trimR POLARITY_R (effective_input st now).2))
        START_KICK_DUTY) ∧
    (0 < st.curR.duty →
      (set_speed_one st.speed_limit st.trimR POLARITY_R st.curR
        (effective_input st now).2).kick = none)) := by
  obtain ⟨hL, hR⟩ := reachable_inv st h
  exact ⟨kick_helper _ _ _ _ _ hL, kick_helper _ _ _ _ _ hR⟩

theorem start_kick_one_shot_witness :
    ((∀ k, (set_speed_one init_state.speed_limit init_state.trimL POLARITY_L
        init_state.curL (effective_input init_state 0).1).kick = some k →
      init_state.curL.duty = 0 ∧
      ¬ mag_of init_state.speed_limit init_state.trimL POLARITY_L
        (effective_input init_state 0).1 < 1/1000 ∧
      k = max (target_duty_of (mag_of init_state.speed_limit init_state.trimL
        POLARITY_L (effective_input init_state 0).1)) START_KICK_DUTY) ∧
    (0 < init_state.curL.duty →
      (set_speed_one init_state.speed_limit init_state.trimL POLARITY_L
        init_state.curL (effective_input init_state 0).1).kick = none)) ∧
    ((∀ k, (set_speed_one init_state.speed_limit init_state.trimR POLARITY_R
        init_state.curR (effective_input init_state 0).2).kick = some k →
      init_state.curR.duty = 0 ∧
      ¬ mag_of init_state.speed_limit init_state.trimR POLARITY_R
        (effective_input init_state 0).2 < 1/1000 ∧
      k = max (target_duty_of (mag_of init_state.speed_limit init_state.trimR
        POLARITY_R (effective_input init_state 0).2)) START_KICK_DUTY) ∧
    (0 < init_state.curR.duty →
      (set_speed_one init_state.speed_limit init_state.trimR POLARITY_R
        init_state.curR (effective_input init_state 0).2).kick = none)) :=
  start_kick_one_shot init_state Reachable.init 0

/-! ## C6: the motor-output invariant holds in every reachable state -/

/-- C6: in every reachable server state, each side's duty is `0` exactly when
its direction is coast, and a non-coasting side's duty lies within
`[DUTY_MIN, DUTY_MAX]`. -/
theorem motor_output_invariant (st : ServerState) (h : Reachable st) :
    ((st.curL.duty = 0 ↔ st.curL.dir = 0) ∧
      (st.curL.dir ≠ 0 → DUTY_MIN ≤ st.curL.duty ∧ st.curL.duty ≤ DUTY_MAX)) ∧
    ((st.curR.duty = 0 ↔ st.curR.dir = 0) ∧
      (st.curR.dir ≠ 0 → DUTY_MIN ≤ st.curR.duty ∧ st.curR.duty ≤ DUTY_MAX)) :=
  reachable_inv st h

theorem motor_output_invariant_witness :
    ((init_state.curL.duty = 0 ↔ init_state.curL.dir = 0) ∧
      (init_state.curL.dir ≠ 0 →
        DUTY_MIN ≤ init_state.curL.duty ∧ init_state.curL.duty ≤ DUTY_MAX)) ∧
    ((init_state.curR.duty = 0 ↔ init_state.curR.dir = 0) ∧
      (init_state.curR.dir ≠ 0 →
        DUTY_MIN ≤ init_state.curR.duty ∧ init_state.curR.duty ≤ DUTY_MAX)) :=
  motor_output_invariant init_state Reachable.init

/-! ## C7: magnitude and duty are monotone in the input's absolute value -/

theorem abs_clamp (x : ℚ) : |max (-1) (min 1 x)| = min 1 |x| := by
  rcases le_total 0 x with hx | hx
  · have h0 : (0:ℚ) ≤ min 1 x := le_min (by norm_num) hx
    rw [max_eq_right (le_trans (by norm_num) h0), abs_of_nonneg h0,
      abs_of_nonneg hx]
  · rw [min_eq_right (hx.trans (by norm_num)), abs_of_nonpos hx]
    rcases le_total (-1 : ℚ) x with h2 | h2
    · rw [max_eq_right h2, abs_of_nonpos hx,
        min_eq_right (by linarith : -x ≤ (1:ℚ))]
    · rw [max_eq_left h2, min_eq_left (by linarith : (1:ℚ) ≤ -x)]
      norm_num

theorem abs_raw_of (pol x : ℚ) : |raw_of pol x| = min 1 |x| * |pol| := by
  unfold raw_of
  rw [abs_mul, abs_clamp]

theorem mag_of_eq (sl trim pol x : ℚ) :
    mag_of sl trim pol x =
      min 1 |x| * |pol| * max 0 (min 1 sl) * max 0 (min 2 trim) := by
  unfold mag_of
  rw [abs_raw_of]

theorem mag_of_mono (sl trim pol a b : ℚ) (hab : |a| ≤ |b|) :
    mag_of sl trim pol a ≤ mag_of sl trim pol b := by
  rw [mag_of_eq, mag_of_eq]
  apply mul_le_mul_of_nonneg_right _ (le_max_left 0 _)
  apply mul_le_mul_of_nonneg_right _ (le_max_left 0 _)
  exact mul_le_mul_of_nonneg_right (min_le_min le_rfl hab) (abs_nonneg _)

theorem target_duty_of_mono (m1 m2 : ℚ) (h0 : 0 ≤ m1) (h : m1 ≤ m2) :
    target_duty_of m1 ≤ target_duty_of m2 := by
  unfold target_duty_of
  have hr : ((m1:ℝ)) ^ GAMMA ≤ ((m2:ℝ)) ^ GAMMA :=
    Real.rpow_le_rpow (by exact_mod_cast h0) (by exact_mod_cast h)
      (by unfold GAMMA; norm_num)
  have hc : (0:ℝ) ≤ DUTY_MAX - DUTY_MIN := by unfold DUTY_MIN DUTY_MAX; norm_num
  exact add_le_add_left
    (mul_le_mul_of_nonneg_left (min_le_min le_rfl hr) hc) _

theorem set_speed_one_duty_nonneg (sl trim pol : ℚ) (cur : MotorOut) (speed : ℚ) :
    0 ≤ (set_speed_one sl trim pol cur speed).out.duty := by
  obtain ⟨hiff, hrange⟩ := set_speed_one_inv sl trim pol cur speed
  by_cases hd : (set_speed_one sl trim pol cur speed).out.dir = 0
  · rw [hiff.mpr hd]
  · have := (hrange hd).1
    have : (0:ℝ) < DUTY_MIN := by unfold DUTY_MIN; norm_num
    linarith [(hrange hd).1]

/-- C7: for same-sign inputs on one side with `|a| ≤ |b|`, at any fixed
speed limit, trim and polarity, the computed magnitude and the resulting
duty are both monotone: `mag(a) ≤ mag(b)` and `duty(a) ≤ duty(b)`. -/
theorem magnitude_duty_monotone (sl trim pol a b : ℚ) (cur1 cur2 : MotorOut)
    (_hsign : 0 ≤ a * b) (hab : |a| ≤ |b|) :
    mag_of sl trim pol a ≤ mag_of sl trim pol b ∧
    (set_speed_one sl trim pol cur1 a).out.duty ≤
      (set_speed_one sl trim pol cur2 b).out.duty := by
  refine ⟨mag_of_mono sl trim pol a b hab, ?_⟩
  by_cases ha : mag_of sl trim pol a < 1/1000
  · rw [set_speed_one_coast sl trim pol cur1 a ha]
    exact set_speed_one_duty_nonneg sl trim pol cur2 b
  · have hb : ¬ mag_of sl trim pol b < 1/1000 :=
      fun hb => ha (lt_of_le_of_lt (mag_of_mono sl trim pol a b hab) hb)
    rw [set_speed_one_go sl trim pol cur1 a ha,
      set_speed_one_go sl trim pol cur2 b hb]
    exact target_duty_of_mono _ _ (mag_of_nonneg sl trim pol a)
      (mag_of_mono sl trim pol a b hab)

theorem magnitude_duty_monotone_witness :
    mag_of 1 1 1 (1/2) ≤ mag_of 1 1 1 1 ∧
    (set_speed_one 1 1 1 { dir := 0, duty := 0 } (1/2)).out.duty ≤
      (set_speed_one 1 1 1 { dir := 0, duty := 0 } 1).out.duty :=
  magnitude_duty_monotone 1 1 1 (1/2) 1 { dir := 0, duty := 0 }
    { dir := 0, duty := 0 } (by norm_num)
    (by rw [abs_of_nonneg (by norm_num : (0:ℚ) ≤ 1/2),
      abs_of_nonneg (by norm_num : (0:ℚ) ≤ 1)]; norm_num)

/-! ## C8: the frame pipeline renders exactly the last submitted frame -/

theorem fp_run_append {α : Type} (dec : α → Bool) (st : FPState α)
    (l1 l2 : List (FPEv α)) :
    fp_run dec st (l1 ++ l2) = fp_run dec (fp_run dec st l1) l2 := by
  induction l1 generalizing st with
  | nil => rfl
  | cons e es ih => simp [fp_run, ih]

theorem arrivals_overwrite {α : Type} (dec : α → Bool) (sl : Option α)
    (pc : TaskPC) (r : List α) (fs : List α) (f : α) :
    fp_run dec { slot := sl, render_busy := true, pc := pc, rendered := r }
        ((fs ++ [f]).map FPEv.arrive) =
      { slot := some f, render_busy := true, pc := pc, rendered := r } := by
  induction fs generalizing sl with
  | nil => simp [fp_run, process_video_frame]
  | cons g gs ih =>
    simp only [List.cons_append, List.map_cons, fp_run, process_video_frame]
    simpa using ih (some g)

/-- C8 counterexample: frames modelled as `Bool` with `dec = id` (`true`
decodes, `false` does not).  While a render is in progress, the decodable
frame `true` arrives followed by the undecodable frame `false`; the
drain-and-render loop terminates — slot empty, busy flag cleared — yet its
rendered list is still empty: the last submitted frame was never rendered,
refuting the claim that on termination exactly the last submitted frame has
been rendered. -/
theorem frame_pipeline_undecodable_last_dropped :
    (fp_run (fun b : Bool => b)
        { slot := none, render_busy := true, pc := .checkStep, rendered := [] }
        (([true] ++ [false]).map FPEv.arrive ++
          [FPEv.step, FPEv.step, FPEv.step])).rendered = [] ∧
    (fp_run (fun b : Bool => b)
        { slot := none, render_busy := true, pc := .checkStep, rendered := [] }
        (([true] ++ [false]).map FPEv.arrive ++
          [FPEv.step, FPEv.step, FPEv.step])).slot = none ∧
    (fp_run (fun b : Bool => b)
        { slot := none, render_busy := true, pc := .checkStep, rendered := [] }
        (([true] ++ [false]).map FPEv.arrive ++
          [FPEv.step, FPEv.step, FPEv.step])).render_busy = false :=
  ⟨rfl, rfl, rfl⟩

/-- C8 (amended): each arrival overwrites the single-slot mailbox; and when
`N ≥ 1` frames arrive in rapid succession while a render is in progress
(`render_busy` set, the task between display and its re-check), the
drain-and-render loop terminates with the slot empty and the busy flag
cleared, having rendered exactly the last submitted frame when that frame
decodes — and nothing at all when `cv2.imdecode` rejects it; the
intermediate frames are dropped either way. -/
theorem frame_pipeline_last_wins {α : Type} (dec : α → Bool) (r : List α)
    (fs : List α) (f : α) :
    (∀ (st : FPState α) (g : α), (process_video_frame st g).slot = some g) ∧
    fp_run dec
        { slot := none, render_busy := true, pc := .checkStep, rendered := r }
        ((fs ++ [f]).map FPEv.arrive ++ [FPEv.step, FPEv.step, FPEv.step]) =
      { slot := none, render_busy := false, pc := .idle,
        rendered := r ++ (if dec f then [f] else []) } := by
  constructor
  · intro st g
    unfold process_video_frame
    split <;> rfl
  · rw [fp_run_append, arrivals_overwrite]
    simp [fp_run, task_step]

/-! ## C9: configuration values are clamped and accepted -/

/-- C9: any numeric `set_speed_limit` value is accepted with `ok` and stored
as its clamp into `[0,1]`; any numeric `set_trim` value for a side is
accepted with `ok` and stored as its clamp into `[0,2]` — out-of-range
configuration values are clamped, never rejected. -/
theorem config_clamped_not_rejected (st : ServerState) (v : ℚ) :
    on_set_speed_limit st (some (.num v)) =
      ({ st with speed_limit := max 0 (min 1 v) }, .ok) ∧
    on_set_trim st { trimL := some (.num v), trimR := none } =
      ({ st with trimL := max 0 (min 2 v) }, .ok) ∧
    on_set_trim st { trimL := none, trimR := some (.num v) } =
      ({ st with trimR := max 0 (min 2 v) }, .ok) :=
  ⟨rfl, rfl, rfl⟩

/-! ## C10: the servo angle is always within `[0, 90]` -/

theorem clamp_deg_mem (x : ℚ) : 0 ≤ clamp_deg x ∧ clamp_deg x ≤ 90 := by
  unfold clamp_deg SERVO_MIN_DEG SERVO_MAX_DEG
  exact ⟨le_max_left 0 _, max_le (by norm_num) (min_le_left _ _)⟩

theorem on_servo_set_angle_mem (s : ServoState) (p : ServoPayload)
    (hs : 0 ≤ s.angle ∧ s.angle ≤ 90) :
    0 ≤ (on_servo_set s p).1.angle ∧ (on_servo_set s p).1.angle ≤ 90 := by
  obtain ⟨pt, pa, pd⟩ := p
  unfold on_servo_set
  rcases pa with _ | a
  · rcases pd with _ | d
    · rcases pt with _ | t <;> simpa using hs
    · rcases pt with _ | t <;> simp <;> exact clamp_deg_mem _
  · rcases pt with _ | t <;> simp <;> exact clamp_deg_mem _

theorem servo_run_mem (ps : List ServoPayload) :
    0 ≤ (servo_run ps).angle ∧ (servo_run ps).angle ≤ 90 := by
  unfold servo_run
  have h : ∀ (s : ServoState), 0 ≤ s.angle ∧ s.angle ≤ 90 →
      0 ≤ (ps.foldl (fun s p => (on_servo_set s p).1) s).angle ∧
        (ps.foldl (fun s p => (on_servo_set s p).1) s).angle ≤ 90 := by
    induction ps with
    | nil => intro s hs; exact hs
    | cons p ps ih =>
      intro s hs
      exact ih _ (on_servo_set_angle_mem s p hs)
  exact h servo_init
    (by unfold servo_init; exact clamp_deg_mem SERVO_DEFAULT_DEG)

/-- C10: the stored servo angle is the clamp of the default at
initialisation and stays within `[SERVO_MIN_DEG, SERVO_MAX_DEG] = [0, 90]`
after any sequence of `servo_set` calls; a `servo_set` with `angle = a`
stores `clamp(a)`, one with only `delta = d` stores `clamp(angle + d)`, and
the commanded pulse width is computed (`_deg_to_us`) from the stored clamped
angle. -/
theorem servo_angle_invariant (ps : List ServoPayload) (s : ServoState)
    (p : ServoPayload) (a d : ℚ) :
    servo_init.angle = clamp_deg SERVO_DEFAULT_DEG ∧
    (0 ≤ (servo_run ps).angle ∧ (servo_run ps).angle ≤ 90) ∧
    (p.angle = some a → (on_servo_set s p).1.angle = clamp_deg a) ∧
    (p.angle = none → p.delta = some d →
      (on_servo_set s p).1.angle = clamp_deg (s.angle + d)) ∧
    (on_servo_set s p).2.1 =
      deg_to_us (on_servo_set s p).1.trim_us (on_servo_set s p).1.angle := by
  obtain ⟨pt, pa, pd⟩ := p
  refine ⟨rfl, servo_run_mem ps, ?_, ?_, ?_⟩
  · intro ha
    simp only at ha
    subst ha
    unfold on_servo_set
    rcases pt with _ | t <;> simp
  · intro ha hd
    simp only at ha hd
    subst ha; subst hd
    unfold on_servo_set
    rcases pt with _ | t <;> simp
  · unfold on_servo_set
    rcases pt with _ | t <;> rcases pa with _ | a2 <;> rcases pd with _ | d2 <;> rfl

end RobotSpec
